import Mathlib

/-!
Verification development for the asset-cache service worker (sw.js) of the
RealEstate-Website-Portfolio repository.

The data model and handlers below are a shallow embedding of src/sw.js.
Responses are modelled by status and body; the cache storage is a list of
named partitions, each an association list from normalized request URLs to
stored responses.  The promise-chain handlers are modelled as pure state
transformers that additionally emit an event trace; an operation whose
promise is not awaited by the source emits its start before the response
event and its completion after it, matching the microtask ordering of the
promise chains in the source.

The Cache Storage API consumed by the worker (caches.open, caches.match,
cache.match, cache.put, cache.addAll, caches.delete, caches.keys) is an
external collaborator; it is modelled after its platform specification.
In particular Cache.addAll fetches every listed path and commits the batch
atomically, rejecting when any fetch fails or yields a response whose
status is not ok (outside 200..299, or 206); on rejection nothing is
stored.
-/

namespace SW

/-- A normalized request URL: origin plus pathname, as produced by
`new URL(event.request.url)` in the source. -/
structure Url where
  origin : String
  pathname : String
deriving DecidableEq

/-- A network response, modelled by its status code and body snapshot. -/
structure Response where
  status : Nat
  body : String
deriving DecidableEq

/-- One cache partition: an association list from request URLs to stored
responses. -/
abbrev Cache := List (Url × Response)

/-- The cache storage: named partitions, in creation order. -/
abbrev CacheStorage := List (String × Cache)

/-- Cache.match on a single partition: the stored response for an exact
request key, if any. -/
def cacheMatch (c : Cache) (u : Url) : Option Response :=
  (c.find? (fun p => p.1 = u)).map Prod.snd

/-- Cache.put: overwrite the binding for a key if present, else append it. -/
def putC (c : Cache) (u : Url) (r : Response) : Cache :=
  if c.any (fun p => p.1 = u) then
    c.map (fun p => if p.1 = u then (u, r) else p)
  else
    c ++ [(u, r)]

/-- Whether a partition with the given name exists. -/
def hasCache (st : CacheStorage) (n : String) : Bool :=
  st.any (fun p => p.1 = n)

/-- caches.open: create the named partition if absent. -/
def openCache (st : CacheStorage) (n : String) : CacheStorage :=
  if hasCache st n then st else st ++ [(n, [])]

/-- The contents of the named partition (empty when absent). -/
def getCache (st : CacheStorage) (n : String) : Cache :=
  ((st.find? (fun p => p.1 = n)).map Prod.snd).getD []

/-- Write a binding into the named partition. -/
def putIn (st : CacheStorage) (n : String) (u : Url) (r : Response) : CacheStorage :=
  st.map (fun p => if p.1 = n then (n, putC p.2 u r) else p)

/-- caches.delete: remove the named partition. -/
def deleteCache (st : CacheStorage) (n : String) : CacheStorage :=
  st.filter (fun p => ¬ p.1 = n)

/-- caches.match: search every partition in creation order, returning the
first stored response whose key matches the request. -/
def cachesMatch (st : CacheStorage) (u : Url) : Option Response :=
  st.findSome? (fun p => cacheMatch p.2 u)

/-- Cache name constant from sw.js line 2. -/
def CACHE_NAME : String := "visualhouse-cache-v1"

/-- Video cache name constant from sw.js line 3. -/
def VIDEO_CACHE_NAME : String := "visualhouse-video-cache-v1"

/-- Critical assets cached at install, sw.js lines 6..14. -/
def CRITICAL_ASSETS : List String :=
  ["/",
   "/index.html",
   "/assets/css/styles.css",
   "/assets/js/main.js",
   "/assets/js/mobile-optimizer.js",
   "/assets/media/01.jpg",
   "/assets/media/about-hero.jpg"]

/-- Video assets cached on first request, sw.js lines 17..19. -/
def VIDEO_ASSETS : List String :=
  ["/assets/media/background-video.mp4"]

/-- Characters after the last slash of a character list (accumulator holds
the current segment reversed). -/
def lastSegAux : List Char → List Char → List Char
  | [], acc => acc.reverse
  | c :: cs, acc => if c = '/' then lastSegAux cs [] else lastSegAux cs (c :: acc)

/-- JavaScript `s.split(sep).pop()` with a slash separator: the final
segment of a path, computed structurally over the characters. -/
def lastSegment (s : String) : String :=
  ⟨lastSegAux s.data []⟩

/-- JavaScript `s.endsWith(t)`, computed structurally over the characters. -/
def strEndsWith (s t : String) : Bool :=
  t.data.isSuffixOf s.data

/-- The video classification test of sw.js line 63:
`VIDEO_ASSETS.some(asset => url.pathname.endsWith(asset.split(sep).pop()))`. -/
def isVideoRequest (u : Url) : Bool :=
  VIDEO_ASSETS.any (fun asset => strEndsWith u.pathname (lastSegment asset))

/-- An ok response status as accepted by Cache.addAll per the Cache API:
in 200..299 and not 206. -/
def respOk (r : Response) : Bool :=
  (200 ≤ r.status && r.status ≤ 299) && !(r.status = 206)

/-- The fetch phase of Cache.addAll: fetch every path (resolved against the
given origin); fail if any fetch fails or yields a non-ok response. -/
def fetchAll (net : Url → Option Response) (origin : String) :
    List String → Option (List (Url × Response))
  | [] => some []
  | p :: ps =>
    match net ⟨origin, p⟩ with
    | none => none
    | some r =>
      if respOk r then
        match fetchAll net origin ps with
        | none => none
        | some rest => some ((⟨origin, p⟩, r) :: rest)
      else none

/-- Cache.addAll on the named partition: atomically store all fetched
responses on success; store nothing and report failure otherwise. -/
def addAll (net : Url → Option Response) (origin : String) (st : CacheStorage)
    (n : String) (paths : List String) : CacheStorage × Bool :=
  match fetchAll net origin paths with
  | some prs => (prs.foldl (fun s pr => putIn s n pr.1 pr.2) st, true)
  | none => (st, false)

/-- Events observable in a fetch-handler run, in the order the promise
chain of the source produces them. -/
inductive Ev where
  | lookupAll (u : Url)
  | lookupIn (n : String) (u : Url)
  | netFetch (u : Url)
  | putStart (n : String) (u : Url)
  | putDone (n : String) (u : Url)
  | respond (r : Response)
  | respondNothing
  | failed
deriving DecidableEq

/-- How a fetch-handler run settles toward the caller. -/
inductive FetchOutcome where
  | responded (r : Response)
  | respondedNone
  | failed
deriving DecidableEq

/-- Result of one fetch-handler run: final cache storage once every pending
operation has settled, the outcome delivered to the caller, and the event
trace. -/
structure FetchRun where
  st : CacheStorage
  outcome : FetchOutcome
  trace : List Ev
deriving DecidableEq

/-- The fetch event listener, sw.js lines 59..128.  `isDocument` models
`event.request.destination === "document"`; `selfOrigin` models
`location.origin`.  The un-awaited `cache.put` calls of the source emit
their completion event after the respond event. -/
def handleFetch (net : Url → Option Response) (isDocument : Bool)
    (selfOrigin : String) (st : CacheStorage) (u : Url) : FetchRun :=
  if VIDEO_ASSETS.any (fun asset => strEndsWith u.pathname (lastSegment asset)) then
    let st1 := openCache st VIDEO_CACHE_NAME
    match cacheMatch (getCache st1 VIDEO_CACHE_NAME) u with
    | some r => ⟨st1, .responded r, [.lookupIn VIDEO_CACHE_NAME u, .respond r]⟩
    | none =>
      match net u with
      | some r =>
        if r.status = 200 then
          ⟨putIn st1 VIDEO_CACHE_NAME u r, .responded r,
            [.lookupIn VIDEO_CACHE_NAME u, .netFetch u,
             .putStart VIDEO_CACHE_NAME u, .respond r, .putDone VIDEO_CACHE_NAME u]⟩
        else
          ⟨st1, .responded r, [.lookupIn VIDEO_CACHE_NAME u, .netFetch u, .respond r]⟩
      | none => ⟨st1, .failed, [.lookupIn VIDEO_CACHE_NAME u, .netFetch u, .failed]⟩
  else
    match cachesMatch st u with
    | some r => ⟨st, .responded r, [.lookupAll u, .respond r]⟩
    | none =>
      match net u with
      | some r =>
        if r.status = 200 ∧ u.origin = selfOrigin then
          ⟨putIn (openCache st CACHE_NAME) CACHE_NAME u r, .responded r,
            [.lookupAll u, .netFetch u, .putStart CACHE_NAME u,
             .respond r, .putDone CACHE_NAME u]⟩
        else
          ⟨st, .responded r, [.lookupAll u, .netFetch u, .respond r]⟩
      | none =>
        if isDocument then
          match cachesMatch st ⟨selfOrigin, "/index.html"⟩ with
          | some r =>
            ⟨st, .responded r,
              [.lookupAll u, .netFetch u, .lookupAll ⟨selfOrigin, "/index.html"⟩, .respond r]⟩
          | none =>
            ⟨st, .respondedNone,
              [.lookupAll u, .netFetch u, .lookupAll ⟨selfOrigin, "/index.html"⟩, .respondNothing]⟩
        else ⟨st, .failed, [.lookupAll u, .netFetch u, .failed]⟩

/-- Result of one install-handler run: final cache storage, whether the
promise given to event.waitUntil resolved, whether skipWaiting was called,
and whether the error branch logged a failure. -/
structure InstallRun where
  st : CacheStorage
  resolved : Bool
  skipWaiting : Bool
  errorLogged : Bool
deriving DecidableEq

/-- The install event listener, sw.js lines 22..37: open the general
partition, addAll the critical assets, then skipWaiting; a failure is
caught, logged, and swallowed (the waitUntil promise still resolves). -/
def handleInstall (net : Url → Option Response) (selfOrigin : String)
    (st : CacheStorage) : InstallRun :=
  let st1 := openCache st CACHE_NAME
  match addAll net selfOrigin st1 CACHE_NAME CRITICAL_ASSETS with
  | (st2, true) => ⟨st2, true, true, false⟩
  | (st2, false) => ⟨st2, true, false, true⟩

/-- The name test of sw.js line 45: keep the current general and media
partitions. -/
def keepName (n : String) : Bool :=
  n = CACHE_NAME || n = VIDEO_CACHE_NAME

/-- The activate event listener, sw.js lines 40..56: enumerate the cache
names and delete every one that is neither the general nor the media name;
then claim clients (the returned flag). -/
def handleActivate (st : CacheStorage) : CacheStorage × Bool :=
  ((st.map Prod.fst).foldl
     (fun s n => if keepName n then s else deleteCache s n) st, true)

/-- Message payload: the `data.type` field of a posted message. -/
structure MsgData where
  type : String
deriving DecidableEq

/-- Externally visible actions of one message-handler run. -/
inductive MsgAction where
  | skipWaiting
  | fetched (u : Url)
  | reply (success : Bool)
deriving DecidableEq

/-- The message event listener, sw.js lines 131..150: SKIP_WAITING calls
skipWaiting; CACHE_VIDEO opens the media partition, addAlls the video
assets, and replies success or failure on the provided port; anything else
does nothing. -/
def handleMessage (net : Url → Option Response) (selfOrigin : String)
    (st : CacheStorage) (data : Option MsgData) : CacheStorage × List MsgAction :=
  match data with
  | none => (st, [])
  | some d =>
    if d.type = "SKIP_WAITING" then (st, [.skipWaiting])
    else if d.type = "CACHE_VIDEO" then
      let st1 := openCache st VIDEO_CACHE_NAME
      match addAll net selfOrigin st1 VIDEO_CACHE_NAME VIDEO_ASSETS with
      | (st2, ok) =>
        (st2, VIDEO_ASSETS.map (fun p => MsgAction.fetched ⟨selfOrigin, p⟩) ++ [.reply ok])
    else (st, [])

/-- Modelled from the spec for comparison with the implementation: classify
as MediaAsset when the final path segment of the URL equals the final path
segment of some MediaAssetList entry. -/
def specIsMedia (u : Url) : Bool :=
  VIDEO_ASSETS.any (fun asset => lastSegment u.pathname = lastSegment asset)

/-- Whether an event is a completed store. -/
def isPutDoneEv : Ev → Bool
  | .putDone _ _ => true
  | _ => false

/-- Whether an event is the response being handed back to the caller. -/
def isRespondEv : Ev → Bool
  | .respond _ => true
  | _ => false

/-- The reading of "the store completes before the response is handed
back" on a trace: the first completed store strictly precedes the first
respond event. -/
def storeBeforeRespond (tr : List Ev) : Bool :=
  tr.findIdx isPutDoneEv < tr.findIdx isRespondEv

/-- Every stored response in every partition has an ok status. -/
def stAllOk (st : CacheStorage) : Prop :=
  ∀ p ∈ st, ∀ e ∈ p.2, respOk e.2 = true

instance stAllOkDecidable (st : CacheStorage) : Decidable (stAllOk st) := by
  unfold stAllOk
  infer_instance

/-! Helper lemmas about the cache primitives. -/

lemma cacheMatch_map_overwrite (c : Cache) (u : Url) (r : Response)
    (h : c.any (fun p => p.1 = u) = true) :
    cacheMatch (c.map (fun p => if p.1 = u then (u, r) else p)) u = some r := by
  induction c with
  | nil => simp at h
  | cons p ps ih =>
    by_cases hp : p.1 = u
    · simp [cacheMatch, hp]
    · have hps : ps.any (fun p => p.1 = u) = true := by
        simp only [List.any_cons] at h
        rcases Bool.or_eq_true_iff.mp h with h1 | h1
        · exact absurd (of_decide_eq_true h1) hp
        · exact h1
      have := ih hps
      simp only [List.map_cons, if_neg hp]
      unfold cacheMatch at this ⊢
      rw [List.find?_cons_of_neg _ (by simpa using hp)]
      exact this

lemma cacheMatch_append_new (c : Cache) (u : Url) (r : Response)
    (h : c.any (fun p => p.1 = u) = false) :
    cacheMatch (c ++ [(u, r)]) u = some r := by
  induction c with
  | nil => simp [cacheMatch]
  | cons p ps ih =>
    simp only [List.any_cons, Bool.or_eq_false_iff] at h
    have hp : ¬ p.1 = u := by
      intro he; rw [he] at h; simp at h
    unfold cacheMatch
    rw [List.cons_append, List.find?_cons_of_neg _ (by simpa using hp)]
    exact ih h.2

lemma cacheMatch_putC_same (c : Cache) (u : Url) (r : Response) :
    cacheMatch (putC c u r) u = some r := by
  unfold putC
  by_cases h : c.any (fun p => p.1 = u) = true
  · rw [if_pos h]; exact cacheMatch_map_overwrite c u r h
  · rw [if_neg h]
    have h' : c.any (fun p => p.1 = u) = false := by
      cases hb : c.any (fun p => p.1 = u)
      · rfl
      · exact absurd hb h
    exact cacheMatch_append_new c u r h'

lemma putC_putC_same (c : Cache) (u : Url) (r : Response) :
    putC (putC c u r) u r = putC c u r := by
  have hf : ∀ p : Url × Response,
      (fun p : Url × Response => if p.1 = u then (u, r) else p)
        ((fun p : Url × Response => if p.1 = u then (u, r) else p) p)
      = (fun p : Url × Response => if p.1 = u then (u, r) else p) p := by
    intro p
    by_cases hp : p.1 = u
    · simp [hp]
    · simp [hp]
  unfold putC
  by_cases h : c.any (fun p => p.1 = u) = true
  · rw [if_pos h]
    have hany : (c.map (fun p => if p.1 = u then (u, r) else p)).any
        (fun p => p.1 = u) = true := by
      rcases List.any_eq_true.mp h with ⟨p, hmem, hpu⟩
      refine List.any_eq_true.mpr ⟨(u, r), ?_, by simp⟩
      refine List.mem_map.mpr ⟨p, hmem, ?_⟩
      simp [of_decide_eq_true hpu]
    rw [if_pos hany, List.map_map]
    exact List.map_congr_left (fun p _ => hf p)
  · rw [if_neg h]
    have hany : (c ++ [(u, r)]).any (fun p => p.1 = u) = true := by
      refine List.any_eq_true.mpr ⟨(u, r), by simp, by simp⟩
    rw [if_pos hany, List.map_append]
    have hc : c.map (fun p => if p.1 = u then (u, r) else p) = c := by
      have : ∀ p ∈ c, (if p.1 = u then (u, r) else p) = p := by
        intro p hmem
        have : ¬ p.1 = u := by
          intro he
          exact h (List.any_eq_true.mpr ⟨p, hmem, decide_eq_true he⟩)
        simp [this]
      calc c.map (fun p => if p.1 = u then (u, r) else p) = c.map id :=
            List.map_congr_left (fun p hp => this p hp)
        _ = c := List.map_id c
    rw [hc]
    simp

lemma hasCache_openCache_self (st : CacheStorage) (n : String) :
    hasCache (openCache st n) n = true := by
  unfold openCache
  by_cases h : hasCache st n = true
  · rw [if_pos h]; exact h
  · rw [if_neg h]
    unfold hasCache
    simp

lemma openCache_of_hasCache {st : CacheStorage} {n : String}
    (h : hasCache st n = true) : openCache st n = st := by
  unfold openCache
  rw [if_pos h]

lemma hasCache_putIn (st : CacheStorage) (n m : String) (u : Url) (r : Response) :
    hasCache (putIn st n u r) m = hasCache st m := by
  induction st with
  | nil => rfl
  | cons p ps ih =>
    unfold putIn hasCache at *
    simp only [List.map_cons, List.any_cons]
    by_cases hp : p.1 = n
    · rw [if_pos hp, ih, hp]
    · rw [if_neg hp, ih]

lemma getCache_putIn_self {st : CacheStorage} {n : String} (u : Url) (r : Response)
    (h : hasCache st n = true) :
    getCache (putIn st n u r) n = putC (getCache st n) u r := by
  induction st with
  | nil => simp [hasCache] at h
  | cons p ps ih =>
    by_cases hp : p.1 = n
    · unfold putIn getCache
      simp only [List.map_cons, if_pos hp]
      rw [List.find?_cons_of_pos _ (by simp), List.find?_cons_of_pos _ (by simpa using hp)]
      rfl
    · have hps : hasCache ps n = true := by
        unfold hasCache at h
        simp only [List.any_cons] at h
        rcases Bool.or_eq_true_iff.mp h with h1 | h1
        · exact absurd (of_decide_eq_true h1) hp
        · exact h1
      have := ih hps
      unfold putIn getCache at this ⊢
      simp only [List.map_cons, if_neg hp]
      rw [List.find?_cons_of_neg _ (by simpa using hp),
          List.find?_cons_of_neg _ (by simpa using hp)]
      exact this

lemma getCache_openCache_self (st : CacheStorage) (n : String) :
    getCache (openCache st n) n = getCache st n := by
  unfold openCache
  by_cases h : hasCache st n = true
  · rw [if_pos h]
  · rw [if_neg h]
    have hnone : st.find? (fun p => p.1 = n) = none := by
      rw [List.find?_eq_none]
      intro p hmem hpn
      exact h (List.any_eq_true.mpr ⟨p, hmem, hpn⟩)
    unfold getCache
    rw [List.find?_append, hnone]
    simp [cacheMatch]

lemma putIn_putIn_same (st : CacheStorage) (n : String) (u : Url) (r : Response) :
    putIn (putIn st n u r) n u r = putIn st n u r := by
  unfold putIn
  rw [List.map_map]
  refine List.map_congr_left ?_
  intro p _
  by_cases hp : p.1 = n
  · simp only [Function.comp_apply, if_pos hp]
    simp [putC_putC_same]
  · simp only [Function.comp_apply, if_neg hp, if_neg hp]

lemma cacheMatch_eq_none_of_video (c : Cache) (u : Url)
    (hc : ∀ e ∈ c, isVideoRequest e.1 = true) (hu : isVideoRequest u = false) :
    cacheMatch c u = none := by
  unfold cacheMatch
  cases hfind : c.find? (fun p => p.1 = u) with
  | none => rfl
  | some e =>
    have h1 : e.1 = u := by
      have := List.find?_some hfind
      simpa using this
    have h2 := List.mem_of_find?_eq_some hfind
    rw [← h1] at hu
    rw [hc e h2] at hu
    cases hu

lemma cachesMatch_eq_none {st : CacheStorage} {u : Url}
    (hNames : ∀ p ∈ st, p.1 = CACHE_NAME ∨ p.1 = VIDEO_CACHE_NAME)
    (hMedia : ∀ p ∈ st, p.1 = VIDEO_CACHE_NAME → ∀ e ∈ p.2, isVideoRequest e.1 = true)
    (hGen : ∀ p ∈ st, p.1 = CACHE_NAME → cacheMatch p.2 u = none)
    (hu : isVideoRequest u = false) :
    cachesMatch st u = none := by
  induction st with
  | nil => rfl
  | cons p ps ih =>
    have hp : cacheMatch p.2 u = none := by
      rcases hNames p (by simp) with h | h
      · exact hGen p (by simp) h
      · exact cacheMatch_eq_none_of_video _ _ (hMedia p (by simp) h) hu
    unfold cachesMatch at *
    rw [List.findSome?_cons, hp]
    exact ih (fun q hq => hNames q (List.mem_cons_of_mem p hq))
      (fun q hq => hMedia q (List.mem_cons_of_mem p hq))
      (fun q hq => hGen q (List.mem_cons_of_mem p hq))

lemma cachesMatch_general_hit {st : CacheStorage} {u : Url} {r : Response}
    (hNames : ∀ p ∈ st, p.1 = CACHE_NAME ∨ p.1 = VIDEO_CACHE_NAME)
    (hMedia : ∀ p ∈ st, p.1 = VIDEO_CACHE_NAME → ∀ e ∈ p.2, isVideoRequest e.1 = true)
    (hu : isVideoRequest u = false)
    (hhit : cacheMatch (getCache st CACHE_NAME) u = some r) :
    cachesMatch st u = some r := by
  induction st with
  | nil => simp [getCache, cacheMatch] at hhit
  | cons p ps ih =>
    by_cases hp : p.1 = CACHE_NAME
    · have hg : getCache (p :: ps) CACHE_NAME = p.2 := by
        unfold getCache
        rw [List.find?_cons_of_pos _ (by simpa using hp)]
        rfl
      rw [hg] at hhit
      unfold cachesMatch
      rw [List.findSome?_cons, hhit]
    · have hv : p.1 = VIDEO_CACHE_NAME := (hNames p (by simp)).resolve_left hp
      have hnone : cacheMatch p.2 u = none :=
        cacheMatch_eq_none_of_video _ _ (hMedia p (by simp) hv) hu
      have hg : getCache (p :: ps) CACHE_NAME = getCache ps CACHE_NAME := by
        unfold getCache
        rw [List.find?_cons_of_neg _ (by simpa using hp)]
      rw [hg] at hhit
      unfold cachesMatch at *
      rw [List.findSome?_cons, hnone]
      exact ih (fun q hq => hNames q (List.mem_cons_of_mem p hq))
        (fun q hq => hMedia q (List.mem_cons_of_mem p hq)) hhit

/-! The stored-status invariant and its preservation lemmas. -/

lemma respOk_of_status200 {r : Response} (h : r.status = 200) : respOk r = true := by
  simp [respOk, h]

lemma allOk_putC {c : Cache} {u : Url} {r : Response}
    (hc : ∀ e ∈ c, respOk e.2 = true) (hr : respOk r = true) :
    ∀ e ∈ putC c u r, respOk e.2 = true := by
  intro e he
  unfold putC at he
  by_cases h : c.any (fun p => p.1 = u) = true
  · rw [if_pos h] at he
    rcases List.mem_map.mp he with ⟨p, hp, hpe⟩
    by_cases hpu : p.1 = u
    · rw [if_pos hpu] at hpe; rw [← hpe]; exact hr
    · rw [if_neg hpu] at hpe; rw [← hpe]; exact hc p hp
  · rw [if_neg h] at he
    rcases List.mem_append.mp he with h1 | h1
    · exact hc e h1
    · simp only [List.mem_singleton] at h1
      rw [h1]
      exact hr

lemma stAllOk_putIn {st : CacheStorage} {n : String} {u : Url} {r : Response}
    (hst : stAllOk st) (hr : respOk r = true) : stAllOk (putIn st n u r) := by
  intro p hp e he
  unfold putIn at hp
  rcases List.mem_map.mp hp with ⟨q, hq, hqp⟩
  by_cases hqn : q.1 = n
  · rw [if_pos hqn] at hqp
    rw [← hqp] at he
    exact allOk_putC (hst q hq) hr e he
  · rw [if_neg hqn] at hqp
    rw [← hqp] at he
    exact hst q hq e he

lemma stAllOk_openCache {st : CacheStorage} {n : String} (hst : stAllOk st) :
    stAllOk (openCache st n) := by
  intro p hp e he
  unfold openCache at hp
  by_cases h : hasCache st n = true
  · rw [if_pos h] at hp; exact hst p hp e he
  · rw [if_neg h] at hp
    rcases List.mem_append.mp hp with h1 | h1
    · exact hst p h1 e he
    · simp only [List.mem_singleton] at h1
      rw [h1] at he
      simp at he

lemma fetchAll_ok {net : Url → Option Response} {origin : String} :
    ∀ {paths : List String} {prs : List (Url × Response)},
      fetchAll net origin paths = some prs → ∀ pr ∈ prs, respOk pr.2 = true := by
  intro paths
  induction paths with
  | nil =>
    intro prs h pr hpr
    unfold fetchAll at h
    rw [← Option.some_inj.mp h] at hpr
    simp at hpr
  | cons p ps ih =>
    intro prs h pr hpr
    unfold fetchAll at h
    cases hnet : net ⟨origin, p⟩ with
    | none =>
      simp only [hnet] at h
      exact Option.noConfusion h
    | some r =>
      simp only [hnet] at h
      by_cases hok : respOk r = true
      · rw [if_pos hok] at h
        cases hrest : fetchAll net origin ps with
        | none => rw [hrest] at h; cases h
        | some rest =>
          rw [hrest] at h
          rw [← Option.some_inj.mp h] at hpr
          rcases List.mem_cons.mp hpr with h1 | h1
          · rw [h1]; exact hok
          · exact ih hrest pr h1
      · rw [if_neg hok] at h; cases h

lemma stAllOk_foldPut {n : String} :
    ∀ (prs : List (Url × Response)) (st : CacheStorage), stAllOk st →
      (∀ pr ∈ prs, respOk pr.2 = true) →
      stAllOk (prs.foldl (fun s pr => putIn s n pr.1 pr.2) st) := by
  intro prs
  induction prs with
  | nil => intro st h _; exact h
  | cons pr prs ih =>
    intro st hst hok
    simp only [List.foldl_cons]
    exact ih _ (stAllOk_putIn hst (hok pr (by simp)))
      (fun q hq => hok q (List.mem_cons_of_mem pr hq))

lemma stAllOk_addAll {net : Url → Option Response} {origin : String}
    {st : CacheStorage} {n : String} {paths : List String} (hst : stAllOk st) :
    stAllOk (addAll net origin st n paths).1 := by
  unfold addAll
  cases hf : fetchAll net origin paths with
  | none => exact hst
  | some prs => exact stAllOk_foldPut prs st hst (fetchAll_ok hf)

lemma stAllOk_deleteCache {st : CacheStorage} {n : String} (hst : stAllOk st) :
    stAllOk (deleteCache st n) := by
  intro p hp e he
  exact hst p (List.mem_of_mem_filter hp) e he

/-! Activation machinery: the fold of deletions over the enumerated names
equals a filter keeping the two recognized partitions. -/

lemma foldlDelete_eq (l : List String) (st : CacheStorage) :
    l.foldl (fun s n => if keepName n then s else deleteCache s n) st
      = st.filter (fun p => keepName p.1 || !(decide (p.1 ∈ l))) := by
  induction l generalizing st with
  | nil =>
    simp only [List.foldl_nil]
    refine (List.filter_eq_self.mpr ?_).symm
    intro p _
    simp
  | cons n ns ih =>
    simp only [List.foldl_cons]
    by_cases h : keepName n = true
    · rw [if_pos h, ih]
      refine List.filter_congr ?_
      intro p _
      by_cases hpn : p.1 = n
      · have hk : keepName p.1 = true := by rw [hpn]; exact h
        simp [hk]
      · simp [List.mem_cons, hpn]
    · have hkn : keepName n = false := by
        cases hkk : keepName n
        · rfl
        · exact absurd hkk h
      rw [if_neg h, ih]
      unfold deleteCache
      rw [List.filter_filter]
      refine List.filter_congr ?_
      intro p _
      by_cases hpn : p.1 = n
      · have hk : keepName p.1 = false := by rw [hpn]; exact hkn
        simp [hpn, hk, hkn, List.mem_cons]
      · simp [hpn, List.mem_cons]

lemma handleActivate_eq_filter (st : CacheStorage) :
    (handleActivate st).1 = st.filter (fun p => keepName p.1) := by
  unfold handleActivate
  rw [foldlDelete_eq]
  refine List.filter_congr ?_
  intro p hp
  have hmem : p.1 ∈ st.map Prod.fst := List.mem_map.mpr ⟨p, hp, rfl⟩
  simp [hmem]

lemma find?_filter_keep (st : CacheStorage) (n : String) (hn : keepName n = true) :
    (st.filter (fun p => keepName p.1)).find? (fun p => p.1 = n)
      = st.find? (fun p => p.1 = n) := by
  induction st with
  | nil => rfl
  | cons p ps ih =>
    simp only [List.filter_cons]
    by_cases hk : keepName p.1 = true
    · simp only [hk, if_true]
      by_cases hpn : p.1 = n
      · rw [List.find?_cons_of_pos _ (by simpa using hpn),
            List.find?_cons_of_pos _ (by simpa using hpn)]
      · rw [List.find?_cons_of_neg _ (by simpa using hpn),
            List.find?_cons_of_neg _ (by simpa using hpn)]
        exact ih
    · have hk2 : keepName p.1 = false := by
        cases hkk : keepName p.1
        · rfl
        · exact absurd hkk hk
      have hpn : ¬ p.1 = n := by
        intro he
        rw [he] at hk2
        rw [hk2] at hn
        exact Bool.noConfusion hn
      simp only [hk2, Bool.false_eq_true, if_false]
      rw [List.find?_cons_of_neg _ (by simpa using hpn)]
      exact ih

lemma getCache_activate (st : CacheStorage) (n : String) (hn : keepName n = true) :
    getCache (handleActivate st).1 n = getCache st n := by
  rw [handleActivate_eq_filter]
  unfold getCache
  rw [find?_filter_keep st n hn]

lemma hasCache_activate_false (st : CacheStorage) (n : String)
    (hn : keepName n = false) :
    hasCache (handleActivate st).1 n = false := by
  rw [handleActivate_eq_filter]
  unfold hasCache
  rw [List.any_eq_false]
  intro p hp
  have hk : keepName p.1 = true := (List.mem_filter.mp hp).2
  intro hpe
  have hpn : p.1 = n := of_decide_eq_true hpe
  rw [hpn] at hk
  rw [hk] at hn
  exact Bool.noConfusion hn

lemma stAllOk_handleActivate {st : CacheStorage} (hst : stAllOk st) :
    stAllOk (handleActivate st).1 := by
  rw [handleActivate_eq_filter]
  intro p hp e he
  exact hst p (List.mem_of_mem_filter hp) e he

lemma stAllOk_handleInstall {net : Url → Option Response} {so : String}
    {st : CacheStorage} (hst : stAllOk st) :
    stAllOk (handleInstall net so st).st := by
  unfold handleInstall
  cases ha : addAll net so (openCache st CACHE_NAME) CACHE_NAME CRITICAL_ASSETS with
  | mk st2 ok =>
    have h2 : stAllOk st2 := by
      have h3 : stAllOk (addAll net so (openCache st CACHE_NAME) CACHE_NAME CRITICAL_ASSETS).1 :=
        stAllOk_addAll (stAllOk_openCache hst)
      rw [ha] at h3
      exact h3
    cases ok
    · simp only [ha]
      exact h2
    · simp only [ha]
      exact h2

lemma stAllOk_handleFetch {net : Url → Option Response} {d : Bool} {so : String}
    {st : CacheStorage} {u : Url} (hst : stAllOk st) :
    stAllOk (handleFetch net d so st u).st := by
  unfold handleFetch
  simp only []
  by_cases hv : (VIDEO_ASSETS.any fun asset => strEndsWith u.pathname (lastSegment asset)) = true
  · rw [if_pos hv]
    cases hm : cacheMatch (getCache (openCache st VIDEO_CACHE_NAME) VIDEO_CACHE_NAME) u with
    | some r =>
      simp only [hm]
      exact stAllOk_openCache hst
    | none =>
      simp only [hm]
      cases hn : net u with
      | none =>
        simp only [hn]
        exact stAllOk_openCache hst
      | some r =>
        simp only [hn]
        by_cases h200 : r.status = 200
        · rw [if_pos h200]
          exact stAllOk_putIn (stAllOk_openCache hst) (respOk_of_status200 h200)
        · rw [if_neg h200]
          exact stAllOk_openCache hst
  · rw [if_neg hv]
    cases hm : cachesMatch st u with
    | some r =>
      simp only [hm]
      exact hst
    | none =>
      simp only [hm]
      cases hn : net u with
      | some r =>
        simp only [hn]
        by_cases hc : r.status = 200 ∧ u.origin = so
        · rw [if_pos hc]
          exact stAllOk_putIn (stAllOk_openCache hst) (respOk_of_status200 hc.1)
        · rw [if_neg hc]
          exact hst
      | none =>
        simp only [hn]
        by_cases hd : d = true
        · rw [if_pos hd]
          cases hi : cachesMatch st ⟨so, "/index.html"⟩ with
          | some r =>
            simp only [hi]
            exact hst
          | none =>
            simp only [hi]
            exact hst
        · rw [if_neg hd]
          exact hst

lemma stAllOk_handleMessage {net : Url → Option Response} {so : String}
    {st : CacheStorage} {data : Option MsgData} (hst : stAllOk st) :
    stAllOk (handleMessage net so st data).1 := by
  unfold handleMessage
  cases data with
  | none => exact hst
  | some dm =>
    simp only []
    by_cases h1 : dm.type = "SKIP_WAITING"
    · rw [if_pos h1]
      exact hst
    · rw [if_neg h1]
      by_cases h2 : dm.type = "CACHE_VIDEO"
      · rw [if_pos h2]
        simp only []
        cases ha : addAll net so (openCache st VIDEO_CACHE_NAME) VIDEO_CACHE_NAME VIDEO_ASSETS with
        | mk st2 ok =>
          simp only [ha]
          have h3 : stAllOk (addAll net so (openCache st VIDEO_CACHE_NAME) VIDEO_CACHE_NAME VIDEO_ASSETS).1 :=
            stAllOk_addAll (stAllOk_openCache hst)
          rw [ha] at h3
          exact h3
      · rw [if_neg h2]
        exact hst

lemma not_video_cond {u : Url} (hu : isVideoRequest u = false) :
    ¬ (VIDEO_ASSETS.any fun asset => strEndsWith u.pathname (lastSegment asset)) = true := by
  intro hc
  have h2 : isVideoRequest u = true := hc
  rw [hu] at h2
  exact Bool.noConfusion h2

lemma handleFetch_head_media {net : Url → Option Response} {d : Bool} {so : String}
    {st : CacheStorage} {u : Url} (hu : isVideoRequest u = true) :
    (handleFetch net d so st u).trace.head? = some (.lookupIn VIDEO_CACHE_NAME u) := by
  have hv : (VIDEO_ASSETS.any fun asset => strEndsWith u.pathname (lastSegment asset)) = true := hu
  unfold handleFetch
  rw [if_pos hv]
  simp only []
  cases hm : cacheMatch (getCache (openCache st VIDEO_CACHE_NAME) VIDEO_CACHE_NAME) u with
  | some r => simp only [hm]; rfl
  | none =>
    simp only [hm]
    cases hn : net u with
    | none => simp only [hn]; rfl
    | some r =>
      simp only [hn]
      by_cases h200 : r.status = 200
      · rw [if_pos h200]; rfl
      · rw [if_neg h200]; rfl

lemma handleFetch_head_general {net : Url → Option Response} {d : Bool} {so : String}
    {st : CacheStorage} {u : Url} (hu : isVideoRequest u = false) :
    (handleFetch net d so st u).trace.head? = some (.lookupAll u) := by
  unfold handleFetch
  rw [if_neg (not_video_cond hu)]
  cases hm : cachesMatch st u with
  | some r => simp only [hm]; rfl
  | none =>
    simp only [hm]
    cases hn : net u with
    | some r =>
      simp only [hn]
      by_cases hc : r.status = 200 ∧ u.origin = so
      · rw [if_pos hc]; rfl
      · rw [if_neg hc]; rfl
    | none =>
      simp only [hn]
      by_cases hd : d = true
      · rw [if_pos hd]
        cases hi : cachesMatch st ⟨so, "/index.html"⟩ with
        | some r => simp only [hi]; rfl
        | none => simp only [hi]; rfl
      · rw [if_neg hd]; rfl

/-! Claim theorems. -/

/-- C1 counterexample: the stylesheet is a critical asset and its fetch
fails on this network, yet the install handler resolves its waitUntil
promise -- the install phase succeeds instead of failing as claimed (the
caught error is only logged and skipWaiting is skipped). -/
theorem C1_counterexample :
    "/assets/css/styles.css" ∈ CRITICAL_ASSETS
    ∧ (fun u : Url => if u.pathname = "/assets/css/styles.css" then none
        else some (⟨200, "ok"⟩ : Response)) ⟨"https://site", "/assets/css/styles.css"⟩ = none
    ∧ (handleInstall
        (fun u : Url => if u.pathname = "/assets/css/styles.css" then none
          else some (⟨200, "ok"⟩ : Response))
        "https://site" []).resolved = true := by
  refine ⟨by decide, by decide, by decide⟩

/-- C1 (amended): if fetching or storing any critical asset fails, no
partial install is committed (the general partition is left empty or
unchanged), the failure is reported in the error log, and skipWaiting is
not invoked; however the handler catches the error, so the install
waitUntil promise still resolves and the new generation is not rejected. -/
theorem C1_install_failure (net : Url → Option Response) (so : String)
    (st : CacheStorage) (hfail : fetchAll net so CRITICAL_ASSETS = none) :
    (handleInstall net so st).resolved = true
    ∧ (handleInstall net so st).skipWaiting = false
    ∧ (handleInstall net so st).errorLogged = true
    ∧ getCache (handleInstall net so st).st CACHE_NAME = getCache st CACHE_NAME := by
  unfold handleInstall addAll
  simp only [hfail]
  exact ⟨trivial, trivial, trivial, getCache_openCache_self st CACHE_NAME⟩

/-- C1 witness: the amended install-failure theorem at the concrete
stylesheet-failing network on an empty storage. -/
theorem C1_install_failure_witness :
    (handleInstall
        (fun u : Url => if u.pathname = "/assets/css/styles.css" then none
          else some (⟨200, "ok"⟩ : Response)) "https://site" []).resolved = true
    ∧ (handleInstall
        (fun u : Url => if u.pathname = "/assets/css/styles.css" then none
          else some (⟨200, "ok"⟩ : Response)) "https://site" []).skipWaiting = false
    ∧ (handleInstall
        (fun u : Url => if u.pathname = "/assets/css/styles.css" then none
          else some (⟨200, "ok"⟩ : Response)) "https://site" []).errorLogged = true
    ∧ getCache (handleInstall
        (fun u : Url => if u.pathname = "/assets/css/styles.css" then none
          else some (⟨200, "ok"⟩ : Response)) "https://site" []).st CACHE_NAME
        = getCache [] CACHE_NAME :=
  C1_install_failure
    (fun u : Url => if u.pathname = "/assets/css/styles.css" then none
      else some (⟨200, "ok"⟩ : Response)) "https://site" [] (by decide)

/-- C2 counterexample: for a general-classified request, with the general
partition empty and a matching entry stored in the media partition, the
lookup returns that media-partition entry without any network attempt --
the cached-response lookup (caches.match) consults every partition, not
exactly the general one as claimed. -/
theorem C2_counterexample :
    isVideoRequest ⟨"https://site", "/page.html"⟩ = false
    ∧ cacheMatch
        (getCache
          [(CACHE_NAME, ([] : Cache)),
           (VIDEO_CACHE_NAME, [(⟨"https://site", "/page.html"⟩, ⟨200, "cached-in-media"⟩)])]
          CACHE_NAME)
        ⟨"https://site", "/page.html"⟩ = none
    ∧ (handleFetch (fun _ => none) false "https://site"
        [(CACHE_NAME, ([] : Cache)),
         (VIDEO_CACHE_NAME, [(⟨"https://site", "/page.html"⟩, ⟨200, "cached-in-media"⟩)])]
        ⟨"https://site", "/page.html"⟩).outcome
        = .responded ⟨200, "cached-in-media"⟩ := by
  refine ⟨by decide, by decide, by decide⟩

/-- C2 (amended): the cached-response lookup for a general-classified
request consults every cache partition (caches.match); on storage where
the media partition holds only media-classified entries and only the two
recognized partitions exist, this coincides with a general-partition exact
match, and a hit is returned immediately with no network attempt and no
state change. -/
theorem C2_general_lookup (net : Url → Option Response) (d : Bool) (so : String)
    (st : CacheStorage) (u : Url) (r : Response)
    (hNames : ∀ p ∈ st, p.1 = CACHE_NAME ∨ p.1 = VIDEO_CACHE_NAME)
    (hMedia : ∀ p ∈ st, p.1 = VIDEO_CACHE_NAME → ∀ e ∈ p.2, isVideoRequest e.1 = true)
    (hu : isVideoRequest u = false)
    (hhit : cacheMatch (getCache st CACHE_NAME) u = some r) :
    handleFetch net d so st u = ⟨st, .responded r, [.lookupAll u, .respond r]⟩ := by
  have hall : cachesMatch st u = some r := cachesMatch_general_hit hNames hMedia hu hhit
  unfold handleFetch
  rw [if_neg (not_video_cond hu)]
  simp only [hall]

/-- C2 witness: the amended lookup theorem at a concrete one-entry general
partition. -/
theorem C2_general_lookup_witness :
    handleFetch (fun _ => none) false "https://site"
        [(CACHE_NAME, [(⟨"https://site", "/page.html"⟩, ⟨200, "body"⟩)]),
         (VIDEO_CACHE_NAME, ([] : Cache))]
        ⟨"https://site", "/page.html"⟩
      = ⟨[(CACHE_NAME, [(⟨"https://site", "/page.html"⟩, ⟨200, "body"⟩)]),
          (VIDEO_CACHE_NAME, ([] : Cache))],
         .responded ⟨200, "body"⟩,
         [.lookupAll ⟨"https://site", "/page.html"⟩, .respond ⟨200, "body"⟩]⟩ :=
  C2_general_lookup (fun _ => none) false "https://site"
    [(CACHE_NAME, [(⟨"https://site", "/page.html"⟩, ⟨200, "body"⟩)]),
     (VIDEO_CACHE_NAME, ([] : Cache))]
    ⟨"https://site", "/page.html"⟩ ⟨200, "body"⟩
    (by decide) (by decide) (by decide) (by decide)

/-- C3 counterexample: for a media request that misses the media partition
and fetches status 200, the run contains a completed store, but the store
does not complete before the response is handed back -- the respond event
precedes the store completion, refuting store-then-return. -/
theorem C3_counterexample :
    ((handleFetch (fun _ => some ⟨200, "vid"⟩) false "https://site" []
        ⟨"https://site", "/assets/media/background-video.mp4"⟩).trace.any isPutDoneEv) = true
    ∧ storeBeforeRespond
        (handleFetch (fun _ => some ⟨200, "vid"⟩) false "https://site" []
          ⟨"https://site", "/assets/media/background-video.mp4"⟩).trace = false := by
  refine ⟨by decide, by decide⟩

/-- C3 (amended): for a media request that misses the media partition and
whose network fetch succeeds with status 200, the store into the media
partition is initiated before the response is handed back, but its
completion is not awaited: the response event precedes the store
completion, and the stored copy is present once the run settles. -/
theorem C3_media_store (net : Url → Option Response) (d : Bool) (so : String)
    (st : CacheStorage) (u : Url) (r : Response)
    (hu : isVideoRequest u = true)
    (hmiss : cacheMatch (getCache st VIDEO_CACHE_NAME) u = none)
    (hnet : net u = some r) (h200 : r.status = 200) :
    (handleFetch net d so st u).trace
      = [.lookupIn VIDEO_CACHE_NAME u, .netFetch u, .putStart VIDEO_CACHE_NAME u,
         .respond r, .putDone VIDEO_CACHE_NAME u]
    ∧ cacheMatch (getCache (handleFetch net d so st u).st VIDEO_CACHE_NAME) u = some r := by
  have hv : (VIDEO_ASSETS.any fun asset => strEndsWith u.pathname (lastSegment asset)) = true := hu
  have hmiss2 : cacheMatch (getCache (openCache st VIDEO_CACHE_NAME) VIDEO_CACHE_NAME) u = none := by
    rw [getCache_openCache_self]
    exact hmiss
  unfold handleFetch
  rw [if_pos hv]
  simp only [hmiss2, hnet]
  rw [if_pos h200]
  refine ⟨rfl, ?_⟩
  rw [getCache_putIn_self u r (hasCache_openCache_self st VIDEO_CACHE_NAME)]
  exact cacheMatch_putC_same _ u r

/-- C3 witness: the amended media-store theorem at a concrete video
request on an empty storage. -/
theorem C3_media_store_witness :
    (handleFetch (fun _ => some ⟨200, "vid"⟩) false "https://site" []
        ⟨"https://site", "/assets/media/background-video.mp4"⟩).trace
      = [.lookupIn VIDEO_CACHE_NAME ⟨"https://site", "/assets/media/background-video.mp4"⟩,
         .netFetch ⟨"https://site", "/assets/media/background-video.mp4"⟩,
         .putStart VIDEO_CACHE_NAME ⟨"https://site", "/assets/media/background-video.mp4"⟩,
         .respond ⟨200, "vid"⟩,
         .putDone VIDEO_CACHE_NAME ⟨"https://site", "/assets/media/background-video.mp4"⟩]
    ∧ cacheMatch
        (getCache (handleFetch (fun _ => some ⟨200, "vid"⟩) false "https://site" []
            ⟨"https://site", "/assets/media/background-video.mp4"⟩).st VIDEO_CACHE_NAME)
        ⟨"https://site", "/assets/media/background-video.mp4"⟩ = some ⟨200, "vid"⟩ :=
  C3_media_store (fun _ => some ⟨200, "vid"⟩) false "https://site" []
    ⟨"https://site", "/assets/media/background-video.mp4"⟩ ⟨200, "vid"⟩
    (by decide) (by decide) (by decide) (by decide)

/-- C4 counterexample: a request whose pathname merely ends with the
configured filename without its final path segment being equal to it
(final segment "xbackground-video.mp4") is still classified MediaAsset by
the code and routed to the media partition, refuting the
final-segment-equality characterization. -/
theorem C4_counterexample :
    isVideoRequest ⟨"https://site", "/xbackground-video.mp4"⟩ = true
    ∧ specIsMedia ⟨"https://site", "/xbackground-video.mp4"⟩ = false
    ∧ (handleFetch (fun _ => none) false "https://site" []
        ⟨"https://site", "/xbackground-video.mp4"⟩).trace.head?
        = some (.lookupIn VIDEO_CACHE_NAME ⟨"https://site", "/xbackground-video.mp4"⟩) := by
  refine ⟨by decide, by decide, by decide⟩

/-- C4 (amended): a request is classified MediaAsset iff its pathname ends
(as a string) with the final path segment of the MediaAssetList entry,
namely "background-video.mp4" -- final-segment equality implies the match
but not conversely; the classification selects exactly one of the two
handler paths (media-partition lookup first versus all-partition lookup
first). -/
theorem C4_classification (net : Url → Option Response) (d : Bool) (so : String)
    (st : CacheStorage) (u : Url) :
    isVideoRequest u = strEndsWith u.pathname "background-video.mp4"
    ∧ (isVideoRequest u = true →
        (handleFetch net d so st u).trace.head? = some (.lookupIn VIDEO_CACHE_NAME u))
    ∧ (isVideoRequest u = false →
        (handleFetch net d so st u).trace.head? = some (.lookupAll u)) := by
  refine ⟨?_, fun hv => handleFetch_head_media hv, fun hv => handleFetch_head_general hv⟩
  show (strEndsWith u.pathname (lastSegment "/assets/media/background-video.mp4") || false)
      = strEndsWith u.pathname "background-video.mp4"
  rw [show lastSegment "/assets/media/background-video.mp4" = "background-video.mp4" by decide]
  exact Bool.or_false _

/-- C4 witness: the amended classification theorem at a media-classified
and a general-classified concrete request. -/
theorem C4_classification_witness :
    (isVideoRequest ⟨"https://site", "/assets/media/background-video.mp4"⟩
        = strEndsWith "/assets/media/background-video.mp4" "background-video.mp4"
      ∧ (handleFetch (fun _ => none) false "https://site" []
          ⟨"https://site", "/assets/media/background-video.mp4"⟩).trace.head?
          = some (.lookupIn VIDEO_CACHE_NAME ⟨"https://site", "/assets/media/background-video.mp4"⟩))
    ∧ (isVideoRequest ⟨"https://site", "/page.html"⟩
        = strEndsWith "/page.html" "background-video.mp4"
      ∧ (handleFetch (fun _ => none) false "https://site" []
          ⟨"https://site", "/page.html"⟩).trace.head?
          = some (.lookupAll ⟨"https://site", "/page.html"⟩)) :=
  ⟨⟨(C4_classification (fun _ => none) false "https://site" []
        ⟨"https://site", "/assets/media/background-video.mp4"⟩).1,
    (C4_classification (fun _ => none) false "https://site" []
        ⟨"https://site", "/assets/media/background-video.mp4"⟩).2.1 (by decide)⟩,
   ⟨(C4_classification (fun _ => none) false "https://site" []
        ⟨"https://site", "/page.html"⟩).1,
    (C4_classification (fun _ => none) false "https://site" []
        ⟨"https://site", "/page.html"⟩).2.2 (by decide)⟩⟩

/-- C5 counterexample: the warm command stores a response with status 201
into the media partition (addAll accepts any ok status), refuting the
claim that only status-200 responses are ever stored. -/
theorem C5_counterexample :
    (201 : Nat) ≠ 200
    ∧ cacheMatch
        (getCache (handleMessage (fun _ => some ⟨201, "x"⟩) "https://site" []
            (some ⟨"CACHE_VIDEO"⟩)).1 VIDEO_CACHE_NAME)
        ⟨"https://site", "/assets/media/background-video.mp4"⟩
        = some ⟨201, "x"⟩ := by
  refine ⟨by decide, by decide⟩

/-- C5 (amended): every handler preserves the invariant that all stored
responses have an ok status (2xx, excluding 206): the two fetch-resolution
paths store only responses with status exactly 200, while install and the
warm command (Cache.addAll) store any response with an ok status; redirect,
client-error, and server-error responses are never stored. -/
theorem C5_stored_ok (net : Url → Option Response) (d : Bool) (so : String)
    (st : CacheStorage) (u : Url) (data : Option MsgData) (hst : stAllOk st) :
    stAllOk (handleInstall net so st).st
    ∧ stAllOk (handleActivate st).1
    ∧ stAllOk (handleFetch net d so st u).st
    ∧ stAllOk (handleMessage net so st data).1 :=
  ⟨stAllOk_handleInstall hst, stAllOk_handleActivate hst,
   stAllOk_handleFetch hst, stAllOk_handleMessage hst⟩

/-- C5 witness: the invariant-preservation theorem at a concrete storage
already holding one ok entry, with a 200-returning network. -/
theorem C5_stored_ok_witness :
    stAllOk (handleInstall (fun _ => some ⟨200, "ok"⟩) "https://site"
        [(CACHE_NAME, [(⟨"https://site", "/index.html"⟩, ⟨200, "home"⟩)])]).st
    ∧ stAllOk (handleActivate
        [(CACHE_NAME, [(⟨"https://site", "/index.html"⟩, ⟨200, "home"⟩)])]).1
    ∧ stAllOk (handleFetch (fun _ => some ⟨200, "ok"⟩) false "https://site"
        [(CACHE_NAME, [(⟨"https://site", "/index.html"⟩, ⟨200, "home"⟩)])]
        ⟨"https://site", "/page.html"⟩).st
    ∧ stAllOk (handleMessage (fun _ => some ⟨200, "ok"⟩) "https://site"
        [(CACHE_NAME, [(⟨"https://site", "/index.html"⟩, ⟨200, "home"⟩)])]
        (some ⟨"CACHE_VIDEO"⟩)).1 :=
  C5_stored_ok (fun _ => some ⟨200, "ok"⟩) false "https://site"
    [(CACHE_NAME, [(⟨"https://site", "/index.html"⟩, ⟨200, "home"⟩)])]
    ⟨"https://site", "/page.html"⟩ (some ⟨"CACHE_VIDEO"⟩) (by decide)

/-- C6: for a general-classified request against a storage with an empty
general partition (and, as in every reachable state, only the two
recognized partitions, the media one holding only media-classified keys),
a network fetch occurs; a same-origin status-200 response is returned and
the asset appears in the general partition once the run settles, the store
completing only after the respond event (stored asynchronously); a
cross-origin response is returned unchanged and the asset never appears in
any partition. -/
theorem C6_general_miss (net : Url → Option Response) (d : Bool) (so : String)
    (st : CacheStorage) (u : Url)
    (hNames : ∀ p ∈ st, p.1 = CACHE_NAME ∨ p.1 = VIDEO_CACHE_NAME)
    (hMedia : ∀ p ∈ st, p.1 = VIDEO_CACHE_NAME → ∀ e ∈ p.2, isVideoRequest e.1 = true)
    (hGen : ∀ p ∈ st, p.1 = CACHE_NAME → p.2 = [])
    (hu : isVideoRequest u = false) :
    Ev.netFetch u ∈ (handleFetch net d so st u).trace
    ∧ (∀ r, net u = some r → r.status = 200 → u.origin = so →
        (handleFetch net d so st u).outcome = .responded r
        ∧ cacheMatch (getCache (handleFetch net d so st u).st CACHE_NAME) u = some r
        ∧ (handleFetch net d so st u).trace
            = [.lookupAll u, .netFetch u, .putStart CACHE_NAME u, .respond r,
               .putDone CACHE_NAME u])
    ∧ (∀ r, net u = some r → ¬ u.origin = so →
        (handleFetch net d so st u).outcome = .responded r
        ∧ (handleFetch net d so st u).st = st
        ∧ cachesMatch (handleFetch net d so st u).st u = none) := by
  have hmiss : cachesMatch st u = none :=
    cachesMatch_eq_none hNames hMedia
      (fun p hp hpn => by rw [hGen p hp hpn]; rfl) hu
  refine ⟨?_, ?_, ?_⟩
  · unfold handleFetch
    rw [if_neg (not_video_cond hu)]
    simp only [hmiss]
    cases hn : net u with
    | some r =>
      simp only [hn]
      by_cases hc : r.status = 200 ∧ u.origin = so
      · rw [if_pos hc]; simp
      · rw [if_neg hc]; simp
    | none =>
      simp only [hn]
      by_cases hd : d = true
      · rw [if_pos hd]
        cases hi : cachesMatch st ⟨so, "/index.html"⟩ with
        | some r => simp only [hi]; simp
        | none => simp only [hi]; simp
      · rw [if_neg hd]; simp
  · intro r hn h200 horig
    unfold handleFetch
    rw [if_neg (not_video_cond hu)]
    simp only [hmiss, hn]
    rw [if_pos ⟨h200, horig⟩]
    refine ⟨rfl, ?_, rfl⟩
    rw [getCache_putIn_self u r (hasCache_openCache_self st CACHE_NAME),
        getCache_openCache_self]
    exact cacheMatch_putC_same _ u r
  · intro r hn hno
    unfold handleFetch
    rw [if_neg (not_video_cond hu)]
    simp only [hmiss, hn]
    have hc : ¬ (r.status = 200 ∧ u.origin = so) := fun hcc => hno hcc.2
    rw [if_neg hc]
    exact ⟨rfl, rfl, hmiss⟩

/-- C6 witness: the general-miss theorem instantiated for a same-origin
and a cross-origin request on the empty two-partition storage. -/
theorem C6_general_miss_witness :
    ((handleFetch (fun _ => some ⟨200, "b"⟩) false "https://site"
        [(CACHE_NAME, ([] : Cache)), (VIDEO_CACHE_NAME, ([] : Cache))]
        ⟨"https://site", "/a.css"⟩).outcome = .responded ⟨200, "b"⟩
      ∧ cacheMatch
          (getCache (handleFetch (fun _ => some ⟨200, "b"⟩) false "https://site"
              [(CACHE_NAME, ([] : Cache)), (VIDEO_CACHE_NAME, ([] : Cache))]
              ⟨"https://site", "/a.css"⟩).st CACHE_NAME)
          ⟨"https://site", "/a.css"⟩ = some ⟨200, "b"⟩)
    ∧ ((handleFetch (fun _ => some ⟨200, "b"⟩) false "https://site"
          [(CACHE_NAME, ([] : Cache)), (VIDEO_CACHE_NAME, ([] : Cache))]
          ⟨"https://cdn.example", "/a.css"⟩).outcome = .responded ⟨200, "b"⟩
      ∧ (handleFetch (fun _ => some ⟨200, "b"⟩) false "https://site"
          [(CACHE_NAME, ([] : Cache)), (VIDEO_CACHE_NAME, ([] : Cache))]
          ⟨"https://cdn.example", "/a.css"⟩).st
          = [(CACHE_NAME, ([] : Cache)), (VIDEO_CACHE_NAME, ([] : Cache))]) :=
  ⟨(fun h => ⟨h.1, h.2.1⟩)
    ((C6_general_miss (fun _ => some ⟨200, "b"⟩) false "https://site"
        [(CACHE_NAME, ([] : Cache)), (VIDEO_CACHE_NAME, ([] : Cache))]
        ⟨"https://site", "/a.css"⟩
        (by decide) (by decide) (by decide) (by decide)).2.1
      ⟨200, "b"⟩ rfl rfl rfl),
   (fun h => ⟨h.1, h.2.1⟩)
    ((C6_general_miss (fun _ => some ⟨200, "b"⟩) false "https://site"
        [(CACHE_NAME, ([] : Cache)), (VIDEO_CACHE_NAME, ([] : Cache))]
        ⟨"https://cdn.example", "/a.css"⟩
        (by decide) (by decide) (by decide) (by decide)).2.2
      ⟨200, "b"⟩ rfl (by decide))⟩

/-- C7: for a document-navigation general request whose lookup misses and
whose network fetch fails, with the offline document present in the
general partition (on well-formed storage), exactly the cached
/index.html response is returned; a failed non-navigation general request
and a failed media request with no cache entry propagate the failure with
no fallback. -/
theorem C7_fallback (net : Url → Option Response) (so : String)
    (st : CacheStorage) (u : Url)
    (hNames : ∀ p ∈ st, p.1 = CACHE_NAME ∨ p.1 = VIDEO_CACHE_NAME)
    (hMedia : ∀ p ∈ st, p.1 = VIDEO_CACHE_NAME → ∀ e ∈ p.2, isVideoRequest e.1 = true) :
    (isVideoRequest u = false → cachesMatch st u = none → net u = none →
      ∀ r, cacheMatch (getCache st CACHE_NAME) ⟨so, "/index.html"⟩ = some r →
        (handleFetch net true so st u).outcome = .responded r)
    ∧ (isVideoRequest u = false → cachesMatch st u = none → net u = none →
        (handleFetch net false so st u).outcome = .failed)
    ∧ (isVideoRequest u = true → cacheMatch (getCache st VIDEO_CACHE_NAME) u = none →
        net u = none → ∀ d, (handleFetch net d so st u).outcome = .failed) := by
  refine ⟨?_, ?_, ?_⟩
  · intro hu hmiss hnet r hidx
    have hfall : cachesMatch st ⟨so, "/index.html"⟩ = some r :=
      cachesMatch_general_hit hNames hMedia (by rfl) hidx
    unfold handleFetch
    rw [if_neg (not_video_cond hu)]
    simp only [hmiss, hnet, hfall]
    rw [if_pos trivial]
  · intro hu hmiss hnet
    unfold handleFetch
    rw [if_neg (not_video_cond hu)]
    simp only [hmiss, hnet]
    rw [if_neg Bool.false_ne_true]
  · intro hu hmedia hnet d
    have hv : (VIDEO_ASSETS.any fun asset => strEndsWith u.pathname (lastSegment asset)) = true := hu
    have hmiss2 : cacheMatch (getCache (openCache st VIDEO_CACHE_NAME) VIDEO_CACHE_NAME) u = none := by
      rw [getCache_openCache_self]
      exact hmedia
    unfold handleFetch
    rw [if_pos hv]
    simp only [hmiss2, hnet]

/-- C7 witness: the fallback theorem instantiated for a failed document
navigation (with /index.html cached), a failed non-navigation request, and
a failed media request, on a concrete storage. -/
theorem C7_fallback_witness :
    (handleFetch (fun _ => none) true "https://site"
        [(CACHE_NAME, [(⟨"https://site", "/index.html"⟩, ⟨200, "home"⟩)]),
         (VIDEO_CACHE_NAME, ([] : Cache))]
        ⟨"https://site", "/missing.css"⟩).outcome = .responded ⟨200, "home"⟩
    ∧ (handleFetch (fun _ => none) false "https://site"
        [(CACHE_NAME, [(⟨"https://site", "/index.html"⟩, ⟨200, "home"⟩)]),
         (VIDEO_CACHE_NAME, ([] : Cache))]
        ⟨"https://site", "/missing.css"⟩).outcome = .failed
    ∧ (handleFetch (fun _ => none) false "https://site"
        [(CACHE_NAME, [(⟨"https://site", "/index.html"⟩, ⟨200, "home"⟩)]),
         (VIDEO_CACHE_NAME, ([] : Cache))]
        ⟨"https://site", "/assets/media/background-video.mp4"⟩).outcome = .failed :=
  ⟨(C7_fallback (fun _ => none) "https://site"
      [(CACHE_NAME, [(⟨"https://site", "/index.html"⟩, ⟨200, "home"⟩)]),
       (VIDEO_CACHE_NAME, ([] : Cache))]
      ⟨"https://site", "/missing.css"⟩ (by decide) (by decide)).1
      (by decide) (by decide) rfl ⟨200, "home"⟩ (by decide),
   (C7_fallback (fun _ => none) "https://site"
      [(CACHE_NAME, [(⟨"https://site", "/index.html"⟩, ⟨200, "home"⟩)]),
       (VIDEO_CACHE_NAME, ([] : Cache))]
      ⟨"https://site", "/missing.css"⟩ (by decide) (by decide)).2.1
      (by decide) (by decide) rfl,
   (C7_fallback (fun _ => none) "https://site"
      [(CACHE_NAME, [(⟨"https://site", "/index.html"⟩, ⟨200, "home"⟩)]),
       (VIDEO_CACHE_NAME, ([] : Cache))]
      ⟨"https://site", "/assets/media/background-video.mp4"⟩ (by decide) (by decide)).2.2
      (by decide) (by decide) rfl false⟩

/-- C8: activation deletes every partition whose name is neither the
general nor the media name and preserves the two recognized partitions
untouched: the resulting storage is exactly the filter keeping the two
names, any other name is gone, and the two partitions keep their exact
contents. -/
theorem C8_activate (st : CacheStorage) :
    (handleActivate st).1 = st.filter (fun p => keepName p.1)
    ∧ (∀ n, ¬ n = CACHE_NAME → ¬ n = VIDEO_CACHE_NAME →
        hasCache (handleActivate st).1 n = false)
    ∧ getCache (handleActivate st).1 CACHE_NAME = getCache st CACHE_NAME
    ∧ getCache (handleActivate st).1 VIDEO_CACHE_NAME = getCache st VIDEO_CACHE_NAME := by
  refine ⟨handleActivate_eq_filter st, ?_, ?_, ?_⟩
  · intro n h1 h2
    have hk : keepName n = false := by
      unfold keepName
      simp [h1, h2]
    exact hasCache_activate_false st n hk
  · exact getCache_activate st CACHE_NAME (by decide)
  · exact getCache_activate st VIDEO_CACHE_NAME (by decide)

/-- C8 witness: the activation theorem at a storage holding a stale
partition alongside populated current ones. -/
theorem C8_activate_witness :
    hasCache (handleActivate
        [("visualhouse-cache-v0", [(⟨"https://site", "/old.css"⟩, ⟨200, "old"⟩)]),
         (CACHE_NAME, [(⟨"https://site", "/index.html"⟩, ⟨200, "home"⟩)]),
         (VIDEO_CACHE_NAME, [(⟨"https://site", "/assets/media/background-video.mp4"⟩, ⟨200, "v"⟩)])]).1
        "visualhouse-cache-v0" = false
    ∧ getCache (handleActivate
        [("visualhouse-cache-v0", [(⟨"https://site", "/old.css"⟩, ⟨200, "old"⟩)]),
         (CACHE_NAME, [(⟨"https://site", "/index.html"⟩, ⟨200, "home"⟩)]),
         (VIDEO_CACHE_NAME, [(⟨"https://site", "/assets/media/background-video.mp4"⟩, ⟨200, "v"⟩)])]).1
        CACHE_NAME
        = getCache
        [("visualhouse-cache-v0", [(⟨"https://site", "/old.css"⟩, ⟨200, "old"⟩)]),
         (CACHE_NAME, [(⟨"https://site", "/index.html"⟩, ⟨200, "home"⟩)]),
         (VIDEO_CACHE_NAME, [(⟨"https://site", "/assets/media/background-video.mp4"⟩, ⟨200, "v"⟩)])]
        CACHE_NAME
    ∧ getCache (handleActivate
        [("visualhouse-cache-v0", [(⟨"https://site", "/old.css"⟩, ⟨200, "old"⟩)]),
         (CACHE_NAME, [(⟨"https://site", "/index.html"⟩, ⟨200, "home"⟩)]),
         (VIDEO_CACHE_NAME, [(⟨"https://site", "/assets/media/background-video.mp4"⟩, ⟨200, "v"⟩)])]).1
        VIDEO_CACHE_NAME
        = getCache
        [("visualhouse-cache-v0", [(⟨"https://site", "/old.css"⟩, ⟨200, "old"⟩)]),
         (CACHE_NAME, [(⟨"https://site", "/index.html"⟩, ⟨200, "home"⟩)]),
         (VIDEO_CACHE_NAME, [(⟨"https://site", "/assets/media/background-video.mp4"⟩, ⟨200, "v"⟩)])]
        VIDEO_CACHE_NAME :=
  ⟨(C8_activate
      [("visualhouse-cache-v0", [(⟨"https://site", "/old.css"⟩, ⟨200, "old"⟩)]),
       (CACHE_NAME, [(⟨"https://site", "/index.html"⟩, ⟨200, "home"⟩)]),
       (VIDEO_CACHE_NAME, [(⟨"https://site", "/assets/media/background-video.mp4"⟩, ⟨200, "v"⟩)])]).2.1
      "visualhouse-cache-v0" (by decide) (by decide),
   (C8_activate
      [("visualhouse-cache-v0", [(⟨"https://site", "/old.css"⟩, ⟨200, "old"⟩)]),
       (CACHE_NAME, [(⟨"https://site", "/index.html"⟩, ⟨200, "home"⟩)]),
       (VIDEO_CACHE_NAME, [(⟨"https://site", "/assets/media/background-video.mp4"⟩, ⟨200, "v"⟩)])]).2.2.1,
   (C8_activate
      [("visualhouse-cache-v0", [(⟨"https://site", "/old.css"⟩, ⟨200, "old"⟩)]),
       (CACHE_NAME, [(⟨"https://site", "/index.html"⟩, ⟨200, "home"⟩)]),
       (VIDEO_CACHE_NAME, [(⟨"https://site", "/assets/media/background-video.mp4"⟩, ⟨200, "v"⟩)])]).2.2.2⟩

lemma handleMessage_warm (net : Url → Option Response) (so : String)
    (st : CacheStorage) :
    (handleMessage net so st (some ⟨"CACHE_VIDEO"⟩)).1
      = (addAll net so (openCache st VIDEO_CACHE_NAME) VIDEO_CACHE_NAME VIDEO_ASSETS).1 := by
  unfold handleMessage
  simp only []
  rw [if_neg (by decide), if_pos trivial]

/-- C9: the media-cache warm command is idempotent: for every starting
storage and fixed network, running the CACHE_VIDEO command twice yields
exactly the same storage (hence the same media-partition contents) as
running it once. -/
theorem C9_warm_idempotent (net : Url → Option Response) (so : String)
    (st : CacheStorage) :
    (handleMessage net so
        (handleMessage net so st (some ⟨"CACHE_VIDEO"⟩)).1 (some ⟨"CACHE_VIDEO"⟩)).1
      = (handleMessage net so st (some ⟨"CACHE_VIDEO"⟩)).1 := by
  simp only [handleMessage_warm]
  unfold addAll
  cases hf : fetchAll net so VIDEO_ASSETS with
  | none =>
    simp only [hf]
    exact openCache_of_hasCache (hasCache_openCache_self st VIDEO_CACHE_NAME)
  | some prs =>
    simp only [fetchAll, VIDEO_ASSETS] at hf
    cases hn : net ⟨so, "/assets/media/background-video.mp4"⟩ with
    | none =>
      simp only [hn] at hf
      exact Option.noConfusion hf
    | some r =>
      simp only [hn] at hf
      by_cases hok : respOk r = true
      · rw [if_pos hok] at hf
        have hprs : prs = [(⟨so, "/assets/media/background-video.mp4"⟩, r)] :=
          (Option.some_inj.mp hf).symm
        subst hprs
        simp only [hf, List.foldl_cons, List.foldl_nil]
        rw [openCache_of_hasCache (by
          rw [hasCache_putIn]
          exact hasCache_openCache_self st VIDEO_CACHE_NAME)]
        exact putIn_putIn_same _ _ _ _
      · rw [if_neg hok] at hf
        exact Option.noConfusion hf

/-- C9 has no hypotheses; a scenario check of the warm command at a
concrete 200-network, stated as equality of the doubled and single runs on
the empty storage. -/
theorem C9_warm_idempotent_concrete :
    (handleMessage (fun _ => some ⟨200, "v"⟩) "https://site"
        (handleMessage (fun _ => some ⟨200, "v"⟩) "https://site" []
          (some ⟨"CACHE_VIDEO"⟩)).1 (some ⟨"CACHE_VIDEO"⟩)).1
      = (handleMessage (fun _ => some ⟨200, "v"⟩) "https://site" []
          (some ⟨"CACHE_VIDEO"⟩)).1 :=
  C9_warm_idempotent (fun _ => some ⟨200, "v"⟩) "https://site" []

/-- C10: a message whose data is absent or whose type is neither
SKIP_WAITING nor CACHE_VIDEO leaves the storage unchanged and performs no
externally visible action: no skipWaiting, no network fetch, no reply. -/
theorem C10_message_noop (net : Url → Option Response) (so : String)
    (st : CacheStorage) (data : Option MsgData)
    (h : ∀ dm, data = some dm → ¬ dm.type = "SKIP_WAITING" ∧ ¬ dm.type = "CACHE_VIDEO") :
    handleMessage net so st data = (st, []) := by
  unfold handleMessage
  cases data with
  | none => rfl
  | some dm =>
    simp only []
    rcases h dm rfl with ⟨h1, h2⟩
    rw [if_neg h1, if_neg h2]

/-- C10 witness: the no-op theorem at a concrete unrecognized message type
on a populated storage. -/
theorem C10_message_noop_witness :
    handleMessage (fun _ => some ⟨200, "x"⟩) "https://site"
        [(CACHE_NAME, [(⟨"https://site", "/index.html"⟩, ⟨200, "home"⟩)])]
        (some ⟨"PING"⟩)
      = ([(CACHE_NAME, [(⟨"https://site", "/index.html"⟩, ⟨200, "home"⟩)])], []) :=
  C10_message_noop (fun _ => some ⟨200, "x"⟩) "https://site"
    [(CACHE_NAME, [(⟨"https://site", "/index.html"⟩, ⟨200, "home"⟩)])]
    (some ⟨"PING"⟩)
    (by
      intro dm hdm
      injection hdm with hd
      rw [← hd]
      exact ⟨by decide, by decide⟩)

end SW
